import Mathlib

set_option maxHeartbeats 1000000
set_option maxRecDepth 4000

/-!
Shallow embedding of the p2p proxy / poller application (src/main.rs and
src/idex.rs): the cookie jar and its merge operation, Set-Cookie parsing,
proxy target resolution, outbound request construction, response relaying,
and the transaction-polling cycle with deduplication and persistence.

Modelling conventions, fixed once here:
* Header names are modelled already lowercased, as hyper/reqwest `HeaderMap`
  normalises them; header values are modelled as `String` (the source drops
  values that are not valid UTF-8 via `to_str().ok()`, which the `String`
  model makes vacuous).
* Byte buffers (request and response bodies) are modelled as `String`,
  treated as opaque byte containers.
* JSON numbers are modelled as arbitrary-precision integers (`Int`); the
  program's verified claims never depend on fractional numeric values, so
  `as_i64`, `as_u64` and `as_f64` are restricted accordingly, and the `f64`
  fields of `Transaction` are carried as `Int`.
* Rust string operations (`split`, `splitn`, `trim`, `to_lowercase`,
  `contains`, `trim_start_matches`) are modelled on `List Char`; on the
  ASCII header data this program feeds them the behaviour is identical.
* `url::Url` (an external crate) is modelled for the special (http-style)
  scheme form `scheme "://" host [ "/" path ]` actually used by this
  program: absolute URLs require the literal `"://"`, the scheme is
  alphabetic, the host is a domain name (no port/userinfo/IP forms), and
  percent- or dot-normalisation of paths is omitted.  `Url.join` is
  modelled for absolute-path references (request paths beginning with
  `/`), which is what the HTTP server hands the handler for origin-form
  requests; other reference forms map to the error branch.
-/

/-! ### Character-list models of the Rust string operations -/

/-- Model of Rust `str::splitn(2, sep)` on one separator character: the part
before the first occurrence of `sep`, and, when `sep` occurs at all, the
remainder after that first occurrence. -/
def splitn2 (sep : Char) : List Char → List Char × Option (List Char)
  | [] => ([], none)
  | c :: rest =>
    if c = sep then ([], some rest)
    else
      let r := splitn2 sep rest
      (c :: r.1, r.2)

/-- `leadsWith pat l` is true when `pat` occurs at the very front of `l`. -/
def leadsWith : List Char → List Char → Bool
  | [], _ => true
  | _ :: _, [] => false
  | p :: ps, c :: cs => p == c && leadsWith ps cs

/-- Split a character list at the first occurrence of the pattern `pat`:
the part before it and the part after it, or `none` when `pat` never
occurs.  Used both for substring containment (Rust `str::contains`) and as
the first step of the URL model. -/
def splitFirstSeq (pat : List Char) : List Char → Option (List Char × List Char)
  | [] => if leadsWith pat [] then some ([], []) else none
  | c :: rest =>
    if leadsWith pat (c :: rest) then some ([], (c :: rest).drop pat.length)
    else
      match splitFirstSeq pat rest with
      | some (a, b) => some (c :: a, b)
      | none => none

/-- Model of Rust `str::contains` for a literal pattern. -/
def containsSub (hay pat : List Char) : Bool :=
  (splitFirstSeq pat hay).isSome

/-- `String`-level wrapper for `containsSub`. -/
def strContainsSubstr (s pat : String) : Bool :=
  containsSub s.toList pat.toList

/-- Model of Rust `str::trim` (whitespace stripped from both ends). -/
def trimChars (cs : List Char) : List Char :=
  ((cs.dropWhile Char.isWhitespace).reverse.dropWhile Char.isWhitespace).reverse

/-- `String`-level wrapper for `trimChars`. -/
def strTrim (s : String) : String :=
  String.mk (trimChars s.toList)

/-- Model of Rust `str::trim_start_matches('/')`: drop every leading `/`. -/
def trimLeadingSlashes (s : String) : String :=
  String.mk (s.toList.dropWhile (fun c => c == '/'))

/-- Model of Rust `Vec::join(sep)` for strings. -/
def joinSep (sep : String) : List String → String
  | [] => ""
  | [x] => x
  | x :: y :: rest => x ++ sep ++ joinSep sep (y :: rest)

/-! ### Cookie jar (src/main.rs, `Cookie` / `CookieStore`) -/

/-- The `Cookie` struct of src/main.rs.  The source's
`expiration_date: Option<f64>` is carried as `Option Int`; every code path
modelled here stores `none` in it. -/
structure Cookie where
  name : String
  value : String
  domain : String
  path : String
  expiration_date : Option Int
  host_only : Option Bool
  http_only : Option Bool
  same_site : Option String
  secure : Option Bool
  session : Option Bool
  store_id : Option String
deriving Repr, DecidableEq

/-- Parsing of one `Set-Cookie` header value
(src/main.rs, `ProxyState::update_from_headers`, lines 97-116): the text
before the first `;` is split at the first `=` into a trimmed name and a
trimmed value (a missing `=` yields the whole trimmed segment as the name
and `""` as the value); `http_only` and `secure` come from case-insensitive
substring checks over the entire raw header value; the path is always `/`
and the domain is the caller-supplied one. -/
def parseSetCookie (cookie_str : String) (domain : String) : Cookie :=
  let cs := cookie_str.toList
  let kv := (splitn2 ';' cs).1
  let split_eq := splitn2 '=' kv
  let lower := cs.map Char.toLower
  { name := String.mk (trimChars split_eq.1)
    value := String.mk (trimChars (split_eq.2.getD []))
    domain := domain
    path := "/"
    expiration_date := none
    host_only := none
    http_only := some (containsSub lower "httponly".toList)
    same_site := none
    secure := some (containsSub lower "secure".toList)
    session := none
    store_id := none }

/-- One step of the jar merge (src/main.rs lines 122-126): replace the
first entry with the same name in place, or append when no entry has that
name. -/
def mergeCookie (store : List Cookie) (nc : Cookie) : List Cookie :=
  match store.findIdx? (fun c => c.name == nc.name) with
  | some pos => store.set pos nc
  | none => store ++ [nc]

/-- `ProxyState::update_from_headers` (src/main.rs lines 92-137): parse
every `set-cookie` header value into a cookie, and when that list is
non-empty merge them all into the store and attempt a disk write (the
returned boolean); otherwise leave the store untouched with no write. -/
def update_from_headers (store : List Cookie) (headers : List (String × String))
    (domain : String) : List Cookie × Bool :=
  let new_cookies :=
    (headers.filter (fun h => h.1 == "set-cookie")).map
      (fun h => parseSetCookie h.2 domain)
  if new_cookies.isEmpty then (store, false)
  else (new_cookies.foldl mergeCookie store, true)

/-- The `"name=value"`-pairs-joined-by-`"; "` cookie header string, as built
identically in src/main.rs lines 191-196 and src/idex.rs lines 216-222. -/
def cookieHeader (store : List Cookie) : String :=
  joinSep "; " (store.map (fun c => c.name ++ "=" ++ c.value))

/-! ### URL model (see the header comment for its documented scope) -/

/-- A parsed absolute URL, restricted to the http-style shape this program
uses. -/
structure Url where
  scheme : String
  host : String
  path : String
deriving Repr, DecidableEq

/-- Whether a scheme is acceptable in the model: non-empty and alphabetic. -/
def validScheme (cs : List Char) : Bool :=
  !cs.isEmpty && cs.all Char.isAlpha

/-- Whether a host is acceptable in the model: a non-empty domain name. -/
def validHost (cs : List Char) : Bool :=
  !cs.isEmpty && cs.all (fun c => c.isAlphanum || c == '.' || c == '-')

/-- Model of `url::Url::parse` for `scheme "://" host [/ path]` URLs. -/
def Url.parse (s : String) : Option Url :=
  match splitFirstSeq "://".toList s.toList with
  | none => none
  | some (schemeCs, rest) =>
    if validScheme schemeCs then
      let hp := splitn2 '/' rest
      if validHost hp.1 then
        some { scheme := String.mk (schemeCs.map Char.toLower)
               host := String.mk (hp.1.map Char.toLower)
               path := String.mk ('/' :: hp.2.getD []) }
      else none
    else none

/-- Model of `url::Url::join` for absolute-path references against an
http-style base: the path is replaced wholesale.  Other reference forms
are outside the model's scope and map to the error branch. -/
def Url.join (base : Url) (p : String) : Option Url :=
  if leadsWith ['/'] p.toList then some { base with path := p } else none

/-- Model of `url::Url::domain()`: the host, when present (IP-address hosts
are outside the model's scope). -/
def Url.domain (u : Url) : Option String :=
  if u.host = "" then none else some u.host

/-! ### Proxy handler (src/main.rs, `proxy_handler`) -/

/-- Outcome of the handler's target-URL resolution (src/main.rs lines
148-175).  `crash` models the `expect("Invalid base URL")` panic taken when
the configured base URL itself does not parse. -/
inductive ResolveResult where
  | ok (u : Url)
  | badRequest (msg : String)
  | crash
deriving Repr, DecidableEq

/-- Target resolution: the request path with every leading `/` stripped is
used as an absolute URL when it contains `"://"` (a parse failure is a
400), and is otherwise joined — unstripped, exactly as the source passes
`req.uri().path()` — onto the parsed configured base URL (a join failure is
a 400).  The descriptive bodies of the source's
`format!("Invalid URL: {}", e)` / `format!("URL join error: {}", e)` are
modelled by their static prefixes. -/
def resolveTarget (base_url req_uri_path : String) : ResolveResult :=
  let req_path := trimLeadingSlashes req_uri_path
  if strContainsSubstr req_path "://" then
    match Url.parse req_path with
    | some u => ResolveResult.ok u
    | none => ResolveResult.badRequest "Invalid URL"
  else
    match Url.parse base_url with
    | none => ResolveResult.crash
    | some base =>
      match Url.join base req_uri_path with
      | some u => ResolveResult.ok u
      | none => ResolveResult.badRequest "URL join error"

/-- The header rewrite applied to each copied inbound header (src/main.rs
lines 182-188): the `host` header's value becomes `"panel.gate.cx"`, every
other header is copied unchanged. -/
def hostRewrite (kv : String × String) : String × String :=
  if kv.1 = "host" then ("host", "panel.gate.cx") else kv

/-- The outbound header list (src/main.rs lines 182-200): every inbound
header copied through `hostRewrite`, then — exactly when the target's
domain is `panel.gate.cx` and the jar's cookie string is non-empty — one
`cookie` header holding the jar string appended at the end (reqwest's
`header` appends; it does not replace the copied headers). -/
def buildOutboundHeaders (reqHeaders : List (String × String)) (target : Url)
    (store : List Cookie) : List (String × String) :=
  let copied := reqHeaders.map hostRewrite
  if (target.domain == some "panel.gate.cx") && (cookieHeader store != "") then
    copied ++ [("cookie", cookieHeader store)]
  else copied

/-- The outbound request the handler builds: same method, resolved target,
headers from `buildOutboundHeaders`, same buffered body. -/
structure OutboundRequest where
  method : String
  url : Url
  headers : List (String × String)
  body : String
deriving Repr, DecidableEq

/-- Assembly of the outbound request (src/main.rs lines 179-203). -/
def buildOutbound (m : String) (reqHeaders : List (String × String)) (bd : String)
    (target : Url) (store : List Cookie) : OutboundRequest :=
  { method := m
    url := target
    headers := buildOutboundHeaders reqHeaders target store
    body := bd }

/-- An upstream response as the handler observes it: status, headers, body
bytes. -/
structure UpstreamResponse where
  status : Nat
  headers : List (String × String)
  body : String
deriving Repr, DecidableEq

/-- The network outcome of the outbound call: send failure, body-read
failure, or a full response. -/
inductive FetchOutcome where
  | sendErr (msg : String)
  | bodyErr (msg : String)
  | success (resp : UpstreamResponse)
deriving Repr, DecidableEq

/-- The response returned to the proxy's caller. -/
structure HttpResponse where
  status : Nat
  headers : List (String × String)
  body : String
deriving Repr, DecidableEq

/-- Relaying of the upstream response (src/main.rs lines 231-238): same
status, every header except `transfer-encoding`, same body bytes. -/
def relayResponse (resp : UpstreamResponse) : HttpResponse :=
  { status := resp.status
    headers := resp.headers.filter (fun h => h.1 != "transfer-encoding")
    body := resp.body }

/-- The full `proxy_handler` (src/main.rs lines 142-239) as a function of
the jar, the configuration, the inbound request components and the network
outcome of the single outbound call.  `none` models the
`expect("Invalid base URL")` panic; every other path yields a response and
the (possibly updated) jar.  Send and body-read failures produce the
source's 500 responses with the error text in the body; a success relays
the response and feeds its headers and the target's domain into
`update_from_headers`. -/
def proxy_handler (store : List Cookie) (base_url m req_uri_path : String)
    (reqHeaders : List (String × String)) (bd : String) (outcome : FetchOutcome) :
    Option (HttpResponse × List Cookie) :=
  match resolveTarget base_url req_uri_path with
  | ResolveResult.crash => none
  | ResolveResult.badRequest msg =>
    some ({ status := 400, headers := [], body := msg }, store)
  | ResolveResult.ok target =>
    let _outbound := buildOutbound m reqHeaders bd target store
    match outcome with
    | FetchOutcome.sendErr e =>
      some ({ status := 500, headers := [], body := "Request error: " ++ e }, store)
    | FetchOutcome.bodyErr e =>
      some ({ status := 500, headers := [], body := "Body error: " ++ e }, store)
    | FetchOutcome.success resp =>
      some (relayResponse resp,
        (update_from_headers store resp.headers ((Url.domain target).getD "")).1)

/-! ### JSON values and the poller (src/idex.rs) -/

/-- A JSON value as serde_json's `Value`, with numbers restricted to
integers (see the header comment). -/
inductive JValue where
  | null
  | bool (b : Bool)
  | num (n : Int)
  | str (s : String)
  | arr (elems : List JValue)
  | obj (fields : List (String × JValue))
deriving Repr

/-- `Value::get(key)`: field lookup on objects, `none` elsewhere. -/
def JValue.get (j : JValue) (key : String) : Option JValue :=
  match j with
  | JValue.obj fields => List.lookup key fields
  | _ => none

/-- `Value::as_str`. -/
def JValue.as_str : JValue → Option String
  | JValue.str s => some s
  | _ => none

/-- `Value::as_i64`, on the integer-number model. -/
def JValue.as_i64 : JValue → Option Int
  | JValue.num n => some n
  | _ => none

/-- `Value::as_f64`, on the integer-number model. -/
def JValue.as_f64 : JValue → Option Int
  | JValue.num n => some n
  | _ => none

/-- `Value::as_u64`, on the integer-number model: non-negative integers. -/
def JValue.as_u64 : JValue → Option Nat
  | JValue.num n => if 0 ≤ n then some n.toNat else none
  | _ => none

/-- `Value::as_array`. -/
def JValue.as_array : JValue → Option (List JValue)
  | JValue.arr elems => some elems
  | _ => none

/-- The `Transaction` record of src/idex.rs lines 14-40, with `f64` fields
carried as `Int` per the integer-number model. -/
structure Transaction where
  user_id : Option String
  transaction_id : String
  payment_method_id : Option String
  wallet : Option String
  amount_rub : Int
  amount_usdt : Int
  total_rub : Int
  total_usdt : Int
  status : Option String
  bank_name : Option String
  bank_code : Option String
  bank_label : Option String
  payment_method : Option String
  course : Option Int
  success_count : Option Nat
  success_rate : Option Int
  approved_at : Option String
  expired_at : Option String
  created_at : String
  updated_at : String
  trader_id : Option String
  trader_name : Option String
  attachments : Option JValue
  idex_id : Option String
deriving Repr

/-- `extract_id` (src/idex.rs lines 71-79): a string id verbatim, an
integer id stringified, anything else rejected. -/
def extract_id (val : JValue) : Option String :=
  match val.as_str with
  | some s => some s
  | none =>
    match val.as_i64 with
    | some n => some (toString n)
    | none => none

/-- `map_transaction` (src/idex.rs lines 83-193): fails only when the `id`
field is missing or not extractable; every other field is a best-effort
optional extraction.  The source's `v as u32` truncation on
`success_count` is the `% 2^32`. -/
def map_transaction (json : JValue) : Option Transaction :=
  match (json.get "id").bind extract_id with
  | none => none
  | some id =>
    some { user_id := (json.get "userId").bind JValue.as_str
           transaction_id := id
           payment_method_id := (json.get "payment_method_id").bind JValue.as_str
           wallet := (json.get "wallet").bind JValue.as_str
           amount_rub :=
             ((((json.get "amount").bind (fun a => a.get "trader")).bind
               (fun t => t.get "643")).bind JValue.as_f64).getD 0
           amount_usdt :=
             ((((json.get "amount").bind (fun a => a.get "trader")).bind
               (fun t => t.get "000001")).bind JValue.as_f64).getD 0
           total_rub :=
             ((((json.get "total").bind (fun t => t.get "trader")).bind
               (fun t => t.get "643")).bind JValue.as_f64).getD 0
           total_usdt :=
             ((((json.get "total").bind (fun t => t.get "trader")).bind
               (fun t => t.get "000001")).bind JValue.as_f64).getD 0
           status := (json.get "status").bind JValue.as_str
           bank_name :=
             (((json.get "bank").bind (fun b => b.get "name")).bind JValue.as_str)
           bank_code :=
             (((json.get "bank").bind (fun b => b.get "code")).bind JValue.as_str)
           bank_label :=
             (((json.get "bank").bind (fun b => b.get "label")).bind JValue.as_str)
           payment_method :=
             (((json.get "method").bind (fun m => m.get "label")).bind JValue.as_str)
           course :=
             (((json.get "meta").bind (fun m => m.get "courses")).bind
               (fun c => c.get "trader")).bind JValue.as_f64
           success_count :=
             (((((json.get "tooltip").bind (fun t => t.get "payments")).bind
               (fun p => p.get "success")).bind JValue.as_u64).map
                 (fun v => v % 4294967296))
           success_rate :=
             ((((json.get "tooltip").bind (fun t => t.get "payments")).bind
               (fun p => p.get "percent")).bind JValue.as_f64)
           approved_at := (json.get "approved_at").bind JValue.as_str
           expired_at := (json.get "expired_at").bind JValue.as_str
           created_at := ((json.get "created_at").bind JValue.as_str).getD ""
           updated_at := ((json.get "updated_at").bind JValue.as_str).getD ""
           trader_id :=
             (((json.get "trader").bind (fun t => t.get "id")).bind JValue.as_str)
           trader_name :=
             (((json.get "trader").bind (fun t => t.get "name")).bind JValue.as_str)
           attachments := json.get "attachments"
           idex_id := none }

/-- One page's observable outcome, abstracting the network and serde calls
of src/idex.rs lines 228-245: a send error, a non-success HTTP status, a
success whose body is not valid JSON (including the
`"Error reading text: …"` fallback body), or a success with a parsed JSON
body. -/
inductive PageResult where
  | netErr
  | httpFail
  | badJson
  | ok (json : JValue)
deriving Repr

/-- Locating the transactions array (src/idex.rs lines 248-256): the
`data.transactions` path, else the `response.payouts.data` path, and the
result must be an array. -/
def findTransArr (json : JValue) : Option (List JValue) :=
  ((((json.get "data").bind (fun d => d.get "transactions"))).orElse
    (fun _ =>
      (((json.get "response").bind (fun r => r.get "payouts")).bind
        (fun p => p.get "data")))).bind JValue.as_array

/-- Processing of one array element (src/idex.rs lines 264-283), threading
the batch of newly found transactions and the known-ID set (modelled as a
list): a missing or non-extractable id skips the element, a known id skips
it, and otherwise the mapped transaction is appended to the batch and its
id inserted into the known set at once. -/
def stepElem (st : List Transaction × List String) (elem : JValue) :
    List Transaction × List String :=
  match elem.get "id" with
  | none => st
  | some id_value =>
    match extract_id id_value with
    | none => st
    | some id =>
      if st.2.contains id then st
      else
        match map_transaction elem with
        | some new_tx => (st.1 ++ [new_tx], new_tx.transaction_id :: st.2)
        | none => st

/-- Processing of one page (src/idex.rs lines 228-294): any failure, and a
JSON body in which neither known shape yields an array, contribute
nothing; a located array is folded element by element. -/
def stepPage (st : List Transaction × List String) (pr : PageResult) :
    List Transaction × List String :=
  match pr with
  | PageResult.ok json =>
    match findTransArr json with
    | some trans_arr => trans_arr.foldl stepElem st
    | none => st
  | _ => st

/-- Whether a page outcome is one of the failure modes the spec lists:
network error, non-success status, invalid JSON, or a JSON body matching
neither known shape. -/
def pageFailed : PageResult → Bool
  | PageResult.netErr => true
  | PageResult.httpFail => true
  | PageResult.badJson => true
  | PageResult.ok json => (findTransArr json).isNone

/-- One poll cycle's page sweep (src/idex.rs lines 204-295): the pages in
order, starting from an empty batch and the known-ID set loaded from the
ledger. -/
def runCycle (pages : List PageResult) (ids : List String) :
    List Transaction × List String :=
  pages.foldl stepPage ([], ids)

/-- The cycle's persistence step (src/idex.rs lines 297-306): when the
batch is non-empty the ledger with the batch appended is written (boolean
`true`); otherwise nothing is written and the ledger file keeps its prior
contents. -/
def cyclePersist (ledger : List Transaction) (pages : List PageResult) :
    List Transaction × Bool :=
  let saved_ids := ledger.map (fun t => t.transaction_id)
  let new_transactions := (runCycle pages saved_ids).1
  if new_transactions.isEmpty then (ledger, false)
  else (ledger ++ new_transactions, true)

/-- The poller's fixed `User-Agent` string (src/idex.rs line 199). -/
def userAgentStr : String :=
  "Mozilla/5.0 (Macintosh; Intel Mac OS X 10_15_7) AppleWebKit/537.36 (KHTML, like Gecko) Chrome/119.0.0.0 Safari/537.36"

/-- The headers the poller attaches to a page request (src/idex.rs lines
213-226): the `User-Agent`, then the jar cookie header exactly when the
jar string is non-empty. -/
def pollerHeaders (store : List Cookie) : List (String × String) :=
  let base := [("user-agent", userAgentStr)]
  if cookieHeader store != "" then base ++ [("cookie", cookieHeader store)]
  else base

/-! ### Invariant used for the dedup proof -/

/-- The state invariant threaded through a poll cycle: the initial known
IDs stay known, the batch's ids are duplicate-free, none of them was
initially known, and all of them are in the current known set. -/
def CycleInv (ids0 : List String) (st : List Transaction × List String) : Prop :=
  (∀ i ∈ ids0, i ∈ st.2) ∧
  (st.1.map (fun t => t.transaction_id)).Nodup ∧
  (∀ t ∈ st.1, t.transaction_id ∉ ids0) ∧
  (∀ t ∈ st.1, t.transaction_id ∈ st.2)

/-! ### Concrete fixtures used by the witnesses -/

/-- A cookie fixture with only name/value populated, as the merge and
header paths use them. -/
def mkCookie (n v d : String) : Cookie :=
  { name := n, value := v, domain := d, path := "/", expiration_date := none
    host_only := none, http_only := none, same_site := none, secure := none
    session := none, store_id := none }

/-- Fixture cookie `a=1`. -/
def cA : Cookie := mkCookie "a" "1" "panel.gate.cx"

/-- Fixture cookie `b=2`. -/
def cB : Cookie := mkCookie "b" "2" "panel.gate.cx"

/-- The gated-domain URL fixture. -/
def urlGate : Url := { scheme := "https", host := "panel.gate.cx", path := "/" }

/-- A page body in the `data.transactions` shape holding ids `42` (integer)
and `"43"` (string). -/
def samplePage1 : JValue :=
  JValue.obj [("data", JValue.obj [("transactions", JValue.arr
    [JValue.obj [("id", JValue.num 42)],
     JValue.obj [("id", JValue.str "43")]])])]

/-- A page body in the `response.payouts.data` shape repeating id `"43"`. -/
def samplePage2 : JValue :=
  JValue.obj [("response", JValue.obj [("payouts", JValue.obj [("data",
    JValue.arr [JValue.obj [("id", JValue.str "43")]])])])]

/-- A two-page cycle fixture. -/
def samplePages : List PageResult :=
  [PageResult.ok samplePage1, PageResult.ok samplePage2]

/-- The resolved target for a relative request path `/x`. -/
def urlGateX : Url := { scheme := "https", host := "panel.gate.cx", path := "/x" }

/-- An upstream response fixture carrying a `transfer-encoding` header. -/
def sampleResp : UpstreamResponse :=
  { status := 200
    headers := [("transfer-encoding", "chunked"), ("content-type", "text/html")]
    body := "hello" }

/-! ### Helper lemmas -/

/-- A fold preserves any invariant its step preserves. -/
theorem foldl_pres {α σ : Type} (P : σ → Prop) (f : σ → α → σ)
    (hf : ∀ s a, P s → P (f s a)) :
    ∀ (l : List α) (s : σ), P s → P (l.foldl f s) := by
  intro l
  induction l with
  | nil => intro s hs; exact hs
  | cons a t ih => intro s hs; exact ih (f s a) (hf s a hs)

/-- `splitn2` on a list free of the separator returns the whole list. -/
theorem splitn2_of_not_mem (sep : Char) (l : List Char) (h : sep ∉ l) :
    splitn2 sep l = (l, none) := by
  induction l with
  | nil => rfl
  | cons c t ih =>
    have hc : ¬ c = sep := by
      intro hc; subst hc; exact h (List.mem_cons_self c t)
    have ht : sep ∉ t := fun hm => h (List.mem_cons_of_mem c hm)
    simp [splitn2, hc, ih ht]

/-- `splitn2` splits at the first occurrence of the separator. -/
theorem splitn2_first (sep : Char) (a b : List Char) (h : sep ∉ a) :
    splitn2 sep (a ++ sep :: b) = (a, some b) := by
  induction a with
  | nil => simp [splitn2]
  | cons c t ih =>
    have hc : ¬ c = sep := by
      intro hc; subst hc; exact h (List.mem_cons_self c t)
    have ht : sep ∉ t := fun hm => h (List.mem_cons_of_mem c hm)
    simp [splitn2, hc, ih ht]

/-- Unfolding of the jar merge step on a non-empty store: replace at the
head when the names agree, otherwise recurse. -/
theorem mergeCookie_cons (c : Cookie) (s : List Cookie) (nc : Cookie) :
    mergeCookie (c :: s) nc =
      if c.name = nc.name then nc :: s else c :: mergeCookie s nc := by
  by_cases h : c.name = nc.name
  · have hb : (c.name == nc.name) = true := by simp [h]
    simp [mergeCookie, List.findIdx?_cons, hb, h]
  · have hb : (c.name == nc.name) = false := by simp [h]
    simp only [mergeCookie, List.findIdx?_cons, hb, Bool.false_eq_true, if_neg, h,
      if_false]
    cases hf : List.findIdx? (fun x => x.name == nc.name) s with
    | none => simp [hf]
    | some i => simp [hf]

/-- Merging a cookie whose name matches no entry appends it. -/
theorem mergeCookie_of_not_mem (s : List Cookie) (nc : Cookie)
    (h : ∀ c ∈ s, c.name ≠ nc.name) : mergeCookie s nc = s ++ [nc] := by
  induction s with
  | nil => rfl
  | cons c t ih =>
    rw [mergeCookie_cons, if_neg (h c (List.mem_cons_self c t)),
      ih (fun x hx => h x (List.mem_cons_of_mem c hx))]
    rfl

/-- Merging a cookie whose name is already present keeps the name list. -/
theorem mergeCookie_names_of_mem (s : List Cookie) (nc : Cookie)
    (h : nc.name ∈ s.map (fun c => c.name)) :
    (mergeCookie s nc).map (fun c => c.name) = s.map (fun c => c.name) := by
  induction s with
  | nil => simp at h
  | cons c t ih =>
    rw [mergeCookie_cons]
    by_cases hc : c.name = nc.name
    · rw [if_pos hc]; simp [hc]
    · rw [if_neg hc]
      have ht : nc.name ∈ t.map (fun c => c.name) := by
        rw [List.map_cons] at h
        rcases List.mem_cons.mp h with he | hv
        · exact absurd he.symm hc
        · exact hv
      simp [ih ht]

/-- One merge step preserves the at-most-one-entry-per-name invariant. -/
theorem mergeCookie_nodup (s : List Cookie) (nc : Cookie)
    (h : (s.map (fun c => c.name)).Nodup) :
    ((mergeCookie s nc).map (fun c => c.name)).Nodup := by
  by_cases hm : nc.name ∈ s.map (fun c => c.name)
  · rw [mergeCookie_names_of_mem s nc hm]; exact h
  · have hne : ∀ c ∈ s, c.name ≠ nc.name := by
      intro c hcs heq
      exact hm (heq ▸ List.mem_map_of_mem (fun c => c.name) hcs)
    rw [mergeCookie_of_not_mem s nc hne]
    simp [List.nodup_append, h, hm]

/-- Folding merges over any incoming list preserves the invariant. -/
theorem foldMerge_nodup (ncs : List Cookie) (s : List Cookie)
    (h : (s.map (fun c => c.name)).Nodup) :
    ((ncs.foldl mergeCookie s).map (fun c => c.name)).Nodup := by
  induction ncs generalizing s with
  | nil => exact h
  | cons nc t ih => exact ih (mergeCookie s nc) (mergeCookie_nodup s nc h)

/-- Merging the same cookie a second time changes nothing. -/
theorem mergeCookie_idem (s : List Cookie) (c : Cookie) :
    mergeCookie (mergeCookie s c) c = mergeCookie s c := by
  induction s with
  | nil =>
    rw [show mergeCookie ([] : List Cookie) c = [c] from rfl, mergeCookie_cons]
    simp
  | cons e t ih =>
    rw [mergeCookie_cons]
    by_cases h : e.name = c.name
    · rw [if_pos h, mergeCookie_cons, if_pos rfl]
    · rw [if_neg h, mergeCookie_cons, if_neg h, ih]

/-- C2: the cookie-jar merge replaces the existing entry with the same name
and appends otherwise; it preserves the at-most-one-entry-per-name
invariant; and an empty incoming cookie sequence leaves the jar unchanged
with no disk write attempted. -/
theorem jar_merge_invariant (store : List Cookie) (hdrs : List (String × String))
    (d : String) :
    (∀ (c : Cookie) (s : List Cookie) (nc : Cookie),
       mergeCookie (c :: s) nc =
         if c.name = nc.name then nc :: s else c :: mergeCookie s nc) ∧
    (∀ nc : Cookie, (∀ c ∈ store, c.name ≠ nc.name) →
       mergeCookie store nc = store ++ [nc]) ∧
    ((store.map (fun c => c.name)).Nodup →
       (((update_from_headers store hdrs d).1).map (fun c => c.name)).Nodup) ∧
    (hdrs.filter (fun h => h.1 == "set-cookie") = [] →
       update_from_headers store hdrs d = (store, false)) := by
  refine ⟨mergeCookie_cons, fun nc hne => mergeCookie_of_not_mem store nc hne, ?_, ?_⟩
  · intro hnd
    by_cases he : ((hdrs.filter (fun h => h.1 == "set-cookie")).map
        (fun h => parseSetCookie h.2 d)).isEmpty
    · simpa [update_from_headers, he] using hnd
    · simp only [update_from_headers, he, if_false, Bool.false_eq_true]
      exact foldMerge_nodup _ store hnd
  · intro hf
    simp [update_from_headers, hf]

/-- C2 witness: a response with no `set-cookie` header leaves the jar
`[a=1]` unchanged and triggers no write. -/
theorem jar_merge_invariant_witness :
    update_from_headers [cA] [("content-type", "17")] "panel.gate.cx" =
      ([cA], false) :=
  (jar_merge_invariant [cA] [("content-type", "17")] "panel.gate.cx").2.2.2
    (by decide)

/-- C9: jar merge is idempotent for identical input, and merging a cookie
whose name differs from every existing entry appends it, leaving every
existing entry unchanged. -/
theorem jar_merge_algebra (s : List Cookie) (c d : Cookie)
    (hd : ∀ e ∈ s, e.name ≠ d.name) :
    mergeCookie (mergeCookie s c) c = mergeCookie s c ∧
    mergeCookie s d = s ++ [d] :=
  ⟨mergeCookie_idem s c, mergeCookie_of_not_mem s d hd⟩

/-- C9 witness: merging `a=1` twice into `[a=1]` equals merging it once,
and merging `b=2` into `[a=1]` yields `[a=1, b=2]`. -/
theorem jar_merge_algebra_witness :
    mergeCookie (mergeCookie [cA] cA) cA = mergeCookie [cA] cA ∧
    mergeCookie [cA] cB = [cA] ++ [cB] :=
  jar_merge_algebra [cA] cA cB (by decide)

/-- C3: the cookie header is the `"name=value"` pairs joined by `"; "` in
jar iteration order, the empty jar yields the empty string, and in that
case neither the poller nor the proxy handler attaches a `cookie` header
(the handler's outbound headers are exactly the copied inbound ones). -/
theorem cookie_header_spec (c : Cookie) (jar : List Cookie)
    (hdrs : List (String × String)) (target : Url) :
    cookieHeader [] = "" ∧
    cookieHeader [c] = c.name ++ "=" ++ c.value ∧
    (jar ≠ [] → cookieHeader (c :: jar) =
       c.name ++ "=" ++ c.value ++ "; " ++ cookieHeader jar) ∧
    pollerHeaders [] = [("user-agent", userAgentStr)] ∧
    buildOutboundHeaders hdrs target [] = hdrs.map hostRewrite := by
  refine ⟨rfl, rfl, ?_, rfl, ?_⟩
  · intro hne
    cases jar with
    | nil => exact absurd rfl hne
    | cons e t => simp [cookieHeader, joinSep, String.append_assoc]
  · simp [buildOutboundHeaders, cookieHeader, joinSep]

/-- C3 witness: the jar `[a=1, b=2]` produces exactly `"a=1; b=2"`. -/
theorem cookie_header_witness : cookieHeader [cA, cB] = "a=1; b=2" := by
  have h := (cookie_header_spec cA [cB] ([] : List (String × String)) urlGate).2.2.1
    (by simp)
  rw [h]
  decide

/-- `Url.parse` succeeds only on strings containing the literal `"://"`. -/
theorem Url.parse_contains (s : String) (u : Url) (h : Url.parse s = some u) :
    strContainsSubstr s "://" = true := by
  unfold strContainsSubstr containsSub
  cases hs : splitFirstSeq "://".toList s.toList with
  | none => rw [Url.parse, hs] at h; exact absurd h (by simp)
  | some p => simp [hs]

/-- C10: a `Set-Cookie` header value is parsed from the text before the
first `;`, split at the first `=` into a trimmed name and trimmed value
(no `=` makes the whole trimmed segment the name with an empty value, and
parsing never fails); the four decomposition cases below cover every
header value (`=` present or absent before the first `;`, attribute text
after a `;` present or absent): `n=v;attrs`, plain `n=v`, `n;attrs`
without `=`, and a bare segment with neither; the path is always `/`, the
domain is the supplied one, and `http_only`/`secure` hold exactly when the
lowercased full header value contains `"httponly"`/`"secure"`. -/
theorem set_cookie_parsing (s n v rest d : String) :
    ((parseSetCookie s d).path = "/" ∧ (parseSetCookie s d).domain = d ∧
     (parseSetCookie s d).http_only =
       some (containsSub (s.toList.map Char.toLower) "httponly".toList) ∧
     (parseSetCookie s d).secure =
       some (containsSub (s.toList.map Char.toLower) "secure".toList)) ∧
    (s.toList = n.toList ++ '=' :: v.toList ++ ';' :: rest.toList →
       '=' ∉ n.toList → ';' ∉ n.toList → ';' ∉ v.toList →
       (parseSetCookie s d).name = strTrim n ∧
       (parseSetCookie s d).value = strTrim v) ∧
    (s.toList = n.toList ++ '=' :: v.toList →
       '=' ∉ n.toList → ';' ∉ n.toList → ';' ∉ v.toList →
       (parseSetCookie s d).name = strTrim n ∧
       (parseSetCookie s d).value = strTrim v) ∧
    (s.toList = n.toList ++ ';' :: rest.toList →
       '=' ∉ n.toList → ';' ∉ n.toList →
       (parseSetCookie s d).name = strTrim n ∧
       (parseSetCookie s d).value = "") ∧
    (';' ∉ s.toList → '=' ∉ s.toList →
       (parseSetCookie s d).name = strTrim s ∧
       (parseSetCookie s d).value = "") := by
  refine ⟨⟨rfl, rfl, rfl, rfl⟩, ?_, ?_, ?_, ?_⟩
  · intro hs h1 h2 h3
    have hsc : ';' ∉ n.toList ++ '=' :: v.toList := by
      intro hmem
      rcases List.mem_append.mp hmem with hl | hr
      · exact h2 hl
      · rcases List.mem_cons.mp hr with he | hv
        · exact absurd he (by decide)
        · exact h3 hv
    have hsplit1 : splitn2 ';' s.toList = (n.toList ++ '=' :: v.toList, some rest.toList) := by
      rw [hs, show n.toList ++ '=' :: v.toList ++ ';' :: rest.toList
          = (n.toList ++ '=' :: v.toList) ++ ';' :: rest.toList by simp]
      exact splitn2_first ';' (n.toList ++ '=' :: v.toList) rest.toList hsc
    have hsplit2 : splitn2 '=' (n.toList ++ '=' :: v.toList) = (n.toList, some v.toList) :=
      splitn2_first '=' n.toList v.toList h1
    simp only [String.toList] at hsplit1 hsplit2
    constructor
    · simp [parseSetCookie, String.toList, hsplit1, hsplit2, strTrim]
    · simp [parseSetCookie, String.toList, hsplit1, hsplit2, strTrim]
  · intro hs h1 h2 h3
    have hns : ';' ∉ s.toList := by
      rw [hs]
      intro hmem
      rcases List.mem_append.mp hmem with hl | hr
      · exact h2 hl
      · rcases List.mem_cons.mp hr with he | hv
        · exact absurd he (by decide)
        · exact h3 hv
    have hsplit1 : splitn2 ';' s.toList = (s.toList, none) :=
      splitn2_of_not_mem ';' s.toList hns
    have hsplit2 : splitn2 '=' s.toList = (n.toList, some v.toList) := by
      rw [hs]
      exact splitn2_first '=' n.toList v.toList h1
    simp only [String.toList] at hsplit1 hsplit2
    constructor
    · simp [parseSetCookie, String.toList, hsplit1, hsplit2, strTrim]
    · simp [parseSetCookie, String.toList, hsplit1, hsplit2, strTrim]
  · intro hs h1 h2
    have hsplit1 : splitn2 ';' s.toList = (n.toList, some rest.toList) := by
      rw [hs]
      exact splitn2_first ';' n.toList rest.toList h2
    have hsplit2 : splitn2 '=' n.toList = (n.toList, none) :=
      splitn2_of_not_mem '=' n.toList h1
    simp only [String.toList] at hsplit1 hsplit2
    constructor
    · simp [parseSetCookie, String.toList, hsplit1, hsplit2, strTrim]
    · simp [parseSetCookie, String.toList, hsplit1, hsplit2, trimChars]
  · intro h1 h2
    have hsplit1 : splitn2 ';' s.toList = (s.toList, none) :=
      splitn2_of_not_mem ';' s.toList h1
    have hsplit2 : splitn2 '=' s.toList = (s.toList, none) :=
      splitn2_of_not_mem '=' s.toList h2
    simp only [String.toList] at hsplit1 hsplit2
    constructor
    · simp [parseSetCookie, String.toList, hsplit1, hsplit2, strTrim]
    · simp [parseSetCookie, String.toList, hsplit1, hsplit2, trimChars]

/-- C10 witness: `"sid=abc; HttpOnly"` (attributes present) and plain
`"sid=abc"` (no attributes) both parse to name `sid`, value `abc`. -/
theorem set_cookie_parsing_witness :
    ((parseSetCookie "sid=abc; HttpOnly" "panel.gate.cx").name = strTrim "sid" ∧
     (parseSetCookie "sid=abc; HttpOnly" "panel.gate.cx").value = strTrim "abc") ∧
    ((parseSetCookie "sid=abc" "panel.gate.cx").name = strTrim "sid" ∧
     (parseSetCookie "sid=abc" "panel.gate.cx").value = strTrim "abc") :=
  ⟨(set_cookie_parsing "sid=abc; HttpOnly" "sid" "abc" " HttpOnly" "panel.gate.cx").2.1
      (by decide) (by decide) (by decide) (by decide),
   (set_cookie_parsing "sid=abc" "sid" "abc" "" "panel.gate.cx").2.2.1
      (by decide) (by decide) (by decide) (by decide)⟩

/-- C4: target resolution uses the stripped request path verbatim whenever
it parses as an absolute URL, independently of the configured base; a
path containing `"://"` that fails to parse yields the 400 branch; a path
without `"://"` is resolved against the parsed base (a join failure again
yielding the 400 branch); with a parsable base the handler never panics;
every 400 branch produces a `400 Bad Request` response with the
descriptive body rather than a crash; and `/https://example.org/path` is
forwarded to `https://example.org/path` even though the base is
`https://panel.gate.cx/`. -/
theorem target_resolution_spec (base_url p : String) :
    (∀ u : Url, Url.parse (trimLeadingSlashes p) = some u →
       resolveTarget base_url p = ResolveResult.ok u) ∧
    (strContainsSubstr (trimLeadingSlashes p) "://" = true →
       Url.parse (trimLeadingSlashes p) = none →
       resolveTarget base_url p = ResolveResult.badRequest "Invalid URL") ∧
    (∀ b : Url, strContainsSubstr (trimLeadingSlashes p) "://" = false →
       Url.parse base_url = some b →
       resolveTarget base_url p =
         match Url.join b p with
         | some u => ResolveResult.ok u
         | none => ResolveResult.badRequest "URL join error") ∧
    (∀ b : Url, Url.parse base_url = some b →
       resolveTarget base_url p ≠ ResolveResult.crash) ∧
    (∀ (msg : String) (store : List Cookie) (m : String)
       (hdrs : List (String × String)) (bd : String) (oc : FetchOutcome),
       resolveTarget base_url p = ResolveResult.badRequest msg →
       proxy_handler store base_url m p hdrs bd oc =
         some ({ status := 400, headers := [], body := msg }, store)) ∧
    resolveTarget "https://panel.gate.cx/" "/https://example.org/path" =
      ResolveResult.ok { scheme := "https", host := "example.org", path := "/path" } := by
  refine ⟨?_, ?_, ?_, ?_, ?_, by decide⟩
  · intro u hu
    have hc := Url.parse_contains (trimLeadingSlashes p) u hu
    simp [resolveTarget, hc, hu]
  · intro hc hn
    simp [resolveTarget, hc, hn]
  · intro b hc hb
    simp [resolveTarget, hc, hb]
  · intro b hb
    cases hc : strContainsSubstr (trimLeadingSlashes p) "://" with
    | true =>
      cases hp : Url.parse (trimLeadingSlashes p) <;> simp [resolveTarget, hc, hp]
    | false =>
      cases hj : Url.join b p <;> simp [resolveTarget, hc, hb, hj]
  · intro msg store m hdrs bd oc h
    simp [proxy_handler, h]

/-- C4 witness: the passthrough example resolves independently of the
configured base. -/
theorem target_resolution_witness :
    resolveTarget "https://panel.gate.cx/" "/https://example.org/path" =
      ResolveResult.ok { scheme := "https", host := "example.org", path := "/path" } :=
  (target_resolution_spec "https://panel.gate.cx/" "/https://example.org/path").1
    { scheme := "https", host := "example.org", path := "/path" } (by decide)

/-- C5 counterexample: on the gated domain with jar `[a=1]`, a
caller-supplied `Cookie: x=1` header is NOT ignored — it is copied into
the outbound request, and the jar cookie header is appended after it, so
the outbound request does not carry the jar's cookies alone. -/
theorem gated_cookie_counterexample :
    buildOutboundHeaders [("cookie", "x=1")] urlGate [cA] =
      [("cookie", "x=1"), ("cookie", "a=1")] ∧
    ¬ (∀ kv ∈ buildOutboundHeaders [("cookie", "x=1")] urlGate [cA],
         kv.1 = "cookie" → kv.2 = cookieHeader [cA]) := by
  constructor
  · decide
  · decide

/-- C5 (amended): the outbound request keeps the method, target and body;
its headers are every inbound header copied with the `host` value
rewritten to the upstream host, followed — exactly when the target's
domain is the gated one and the jar is non-empty — by one appended
`cookie` header holding the jar string, in addition to (not instead of)
any caller-supplied `cookie` header, which is copied like every other
non-`host` header. -/
theorem outbound_request_spec (m bd : String) (hdrs : List (String × String))
    (target : Url) (store : List Cookie) :
    (buildOutbound m hdrs bd target store).method = m ∧
    (buildOutbound m hdrs bd target store).url = target ∧
    (buildOutbound m hdrs bd target store).body = bd ∧
    (buildOutbound m hdrs bd target store).headers =
      hdrs.map hostRewrite ++
        (if (target.domain == some "panel.gate.cx") && (cookieHeader store != "")
         then [("cookie", cookieHeader store)] else []) ∧
    (∀ kv ∈ hdrs, kv.1 ≠ "host" →
       kv ∈ (buildOutbound m hdrs bd target store).headers) ∧
    (target.domain ≠ some "panel.gate.cx" →
       (buildOutbound m hdrs bd target store).headers = hdrs.map hostRewrite) ∧
    (cookieHeader store = "" →
       (buildOutbound m hdrs bd target store).headers = hdrs.map hostRewrite) := by
  refine ⟨rfl, rfl, rfl, ?_, ?_, ?_, ?_⟩
  · by_cases hc : ((target.domain == some "panel.gate.cx") &&
        (cookieHeader store != "")) = true
    · simp [buildOutbound, buildOutboundHeaders, hc]
    · simp only [Bool.not_eq_true] at hc
      simp [buildOutbound, buildOutboundHeaders, hc]
  · intro kv hkv hne
    have hmem : kv ∈ hdrs.map hostRewrite := by
      have : hostRewrite kv = kv := by simp [hostRewrite, hne]
      exact this ▸ List.mem_map_of_mem hostRewrite hkv
    simp only [buildOutbound, buildOutboundHeaders]
    by_cases hc : ((target.domain == some "panel.gate.cx") &&
        (cookieHeader store != "")) = true
    · simp only [hc, if_true]
      exact List.mem_append_left _ hmem
    · simp only [Bool.not_eq_true] at hc
      simp only [hc, Bool.false_eq_true, if_false]
      exact hmem
  · intro hd
    have hc : (target.domain == some "panel.gate.cx") = false := by
      simpa using hd
    simp [buildOutbound, buildOutboundHeaders, hc]
  · intro hch
    simp [buildOutbound, buildOutboundHeaders, hch]

/-- C5 witness: on the gated target with jar `[a=1]`, the caller's `cookie`
header is still present in the outbound headers. -/
theorem outbound_request_spec_witness :
    ("cookie", "x=1") ∈
      (buildOutbound "GET" [("host", "127.0.0.1:8080"), ("cookie", "x=1")] ""
        urlGate [cA]).headers :=
  (outbound_request_spec "GET" "" [("host", "127.0.0.1:8080"), ("cookie", "x=1")]
      urlGate [cA]).2.2.2.2.1 ("cookie", "x=1") (by decide) (by decide)

/-- C8: the relayed response keeps the upstream status and body bytes and
carries exactly the upstream headers other than `transfer-encoding`; and
on the success path the handler returns exactly this relayed response. -/
theorem relay_response_spec (resp : UpstreamResponse) (store : List Cookie)
    (base_url m p bd : String) (hdrs : List (String × String)) (target : Url) :
    (relayResponse resp).status = resp.status ∧
    (relayResponse resp).body = resp.body ∧
    (∀ h, h ∈ (relayResponse resp).headers ↔
       h ∈ resp.headers ∧ h.1 ≠ "transfer-encoding") ∧
    (relayResponse resp).headers =
      resp.headers.filter (fun h => h.1 != "transfer-encoding") ∧
    (resolveTarget base_url p = ResolveResult.ok target →
       proxy_handler store base_url m p hdrs bd (FetchOutcome.success resp) =
         some (relayResponse resp,
           (update_from_headers store resp.headers ((Url.domain target).getD "")).1)) := by
  refine ⟨rfl, rfl, ?_, rfl, ?_⟩
  · intro h
    simp [relayResponse, List.mem_filter]
  · intro hres
    simp [proxy_handler, hres]

/-- C8 witness: a concrete upstream response with a `transfer-encoding`
header is relayed through the handler on the success path. -/
theorem relay_response_witness :
    proxy_handler [] "https://panel.gate.cx/" "GET" "/x" [] ""
        (FetchOutcome.success sampleResp) =
      some (relayResponse sampleResp,
        (update_from_headers [] sampleResp.headers
          ((Url.domain urlGateX).getD "")).1) :=
  (relay_response_spec sampleResp [] "https://panel.gate.cx/" "GET" "/x" "" []
      urlGateX).2.2.2.2 (by decide)

/-- A successfully mapped transaction carries exactly the id extracted
from the element's `id` field. -/
theorem map_transaction_id (e : JValue) (tx : Transaction)
    (h : map_transaction e = some tx) :
    (e.get "id").bind extract_id = some tx.transaction_id := by
  cases hb : (JValue.get e "id").bind extract_id with
  | none => simp [map_transaction, hb] at h
  | some i =>
    simp only [map_transaction, hb] at h
    have hrec := Option.some.inj h
    rw [← hrec]

/-- `stepElem` skips an element without an `id` field. -/
theorem stepElem_no_id (st : List Transaction × List String) (e : JValue)
    (hg : e.get "id" = none) : stepElem st e = st := by
  simp [stepElem, hg]

/-- `stepElem` skips an element whose id is not extractable. -/
theorem stepElem_noext (st : List Transaction × List String) (e idv : JValue)
    (hg : e.get "id" = some idv) (hx : extract_id idv = none) :
    stepElem st e = st := by
  simp [stepElem, hg, hx]

/-- `stepElem` skips an element whose id is already known. -/
theorem stepElem_known (st : List Transaction × List String) (e idv : JValue)
    (id : String) (hg : e.get "id" = some idv) (hx : extract_id idv = some id)
    (hc : st.2.contains id = true) : stepElem st e = st := by
  simp [stepElem, hg, hx, List.elem_iff.mp hc]

/-- `stepElem` skips an element the mapper rejects. -/
theorem stepElem_nomap (st : List Transaction × List String) (e idv : JValue)
    (id : String) (hg : e.get "id" = some idv) (hx : extract_id idv = some id)
    (hc : st.2.contains id = false) (hm : map_transaction e = none) :
    stepElem st e = st := by
  have hnm : id ∉ st.2 := fun hmem => by
    have hct : st.2.contains id = true := List.elem_iff.mpr hmem
    rw [hct] at hc
    exact Bool.true_eq_false.mp hc
  simp [stepElem, hg, hx, hnm, hm]

/-- `stepElem` accepts a fresh element: the transaction is appended to the
batch and its id inserted into the known set. -/
theorem stepElem_new (st : List Transaction × List String) (e idv : JValue)
    (id : String) (tx : Transaction) (hg : e.get "id" = some idv)
    (hx : extract_id idv = some id) (hc : st.2.contains id = false)
    (hm : map_transaction e = some tx) :
    stepElem st e = (st.1 ++ [tx], tx.transaction_id :: st.2) := by
  have hnm : id ∉ st.2 := fun hmem => by
    have hct : st.2.contains id = true := List.elem_iff.mpr hmem
    rw [hct] at hc
    exact Bool.true_eq_false.mp hc
  simp [stepElem, hg, hx, hnm, hm]

/-- One element step preserves the cycle invariant. -/
theorem stepElem_inv (ids0 : List String) (st : List Transaction × List String)
    (e : JValue) (h : CycleInv ids0 st) : CycleInv ids0 (stepElem st e) := by
  obtain ⟨h1, h2, h3, h4⟩ := h
  cases hg : JValue.get e "id" with
  | none => rw [stepElem_no_id st e hg]; exact ⟨h1, h2, h3, h4⟩
  | some idv =>
    cases hx : extract_id idv with
    | none => rw [stepElem_noext st e idv hg hx]; exact ⟨h1, h2, h3, h4⟩
    | some id =>
      cases hc : st.2.contains id with
      | true => rw [stepElem_known st e idv id hg hx hc]; exact ⟨h1, h2, h3, h4⟩
      | false =>
        have hidnot : id ∉ st.2 := fun hmem => by
          have hct : st.2.contains id = true := List.elem_iff.mpr hmem
          rw [hct] at hc
          exact Bool.true_eq_false.mp hc
        cases hm : map_transaction e with
        | none =>
          rw [stepElem_nomap st e idv id hg hx hc hm]
          exact ⟨h1, h2, h3, h4⟩
        | some tx =>
          have htid : tx.transaction_id = id := by
            have hh := map_transaction_id e tx hm
            rw [hg] at hh
            simp only [Option.some_bind] at hh
            rw [hx] at hh
            exact (Option.some.inj hh).symm
          rw [stepElem_new st e idv id tx hg hx hc hm]
          refine ⟨?_, ?_, ?_, ?_⟩
          · intro i hi
            exact List.mem_cons_of_mem _ (h1 i hi)
          · have hnm : tx.transaction_id ∉
                st.1.map (fun t => t.transaction_id) := by
              intro hmm
              rcases List.mem_map.mp hmm with ⟨t, htl, hte⟩
              have hin := h4 t htl
              rw [hte, htid] at hin
              exact hidnot hin
            simp [List.nodup_append, h2, hnm]
          · intro t ht
            rcases List.mem_append.mp ht with hl | hr
            · exact h3 t hl
            · have hteq : t = tx := by simpa using hr
              subst hteq
              intro hin
              have hss := h1 t.transaction_id hin
              rw [htid] at hss
              exact hidnot hss
          · intro t ht
            rcases List.mem_append.mp ht with hl | hr
            · exact List.mem_cons_of_mem _ (h4 t hl)
            · have hteq : t = tx := by simpa using hr
              subst hteq
              exact List.mem_cons_self _ _

/-- One page step preserves the cycle invariant. -/
theorem stepPage_inv (ids0 : List String) (st : List Transaction × List String)
    (pr : PageResult) (h : CycleInv ids0 st) : CycleInv ids0 (stepPage st pr) := by
  cases pr with
  | netErr => exact h
  | httpFail => exact h
  | badJson => exact h
  | ok json =>
    cases hft : findTransArr json with
    | none => simpa [stepPage, hft] using h
    | some arr =>
      have harr : stepPage st (PageResult.ok json) = arr.foldl stepElem st := by
        simp [stepPage, hft]
      rw [harr]
      exact foldl_pres (CycleInv ids0) stepElem
        (fun s e hh => stepElem_inv ids0 s e hh) arr st h

/-- Every poll cycle satisfies the cycle invariant. -/
theorem runCycle_inv (pages : List PageResult) (ids : List String) :
    CycleInv ids (runCycle pages ids) := by
  have hinit : CycleInv ids ([], ids) :=
    ⟨fun i h => h, by simp, by simp, by simp⟩
  exact foldl_pres (CycleInv ids) stepPage
    (fun s a h => stepPage_inv ids s a h) pages ([], ids) hinit

/-- Whenever the `id` field extraction succeeds, the mapper succeeds and
the mapped transaction carries exactly that id (every other field of
`map_transaction` is a best-effort optional extraction that cannot fail). -/
theorem map_transaction_of_extract (e : JValue) (id : String)
    (h : (e.get "id").bind extract_id = some id) :
    ∃ tx, map_transaction e = some tx ∧ tx.transaction_id = id := by
  unfold map_transaction
  rw [h]
  exact ⟨_, rfl, rfl⟩

/-- C1: with `"42"` among the known IDs, an element whose `id` field is
the JSON integer `42` or the JSON string `"42"` is skipped without any
state change; an element carrying a fresh extractable id is actually
accepted — the mapped transaction is appended to the batch and its id is
inserted into the known-ID set at that very step, so later occurrences in
the same cycle are skipped; and across all pages of one cycle the batch
ids are pairwise distinct and disjoint from the ids known at cycle start:
a previously-unknown id is added exactly once per cycle. -/
theorem transaction_dedup (pages : List PageResult) (ids : List String)
    (h42 : "42" ∈ ids) :
    (∀ (st : List Transaction × List String) (e : JValue), "42" ∈ st.2 →
       (JValue.get e "id" = some (JValue.num 42) ∨
        JValue.get e "id" = some (JValue.str "42")) →
       stepElem st e = st) ∧
    (∀ (st : List Transaction × List String) (e idv : JValue) (id : String),
       JValue.get e "id" = some idv → extract_id idv = some id →
       st.2.contains id = false →
       ∃ tx, map_transaction e = some tx ∧ tx.transaction_id = id ∧
         stepElem st e = (st.1 ++ [tx], id :: st.2)) ∧
    ((runCycle pages ids).1.map (fun t => t.transaction_id)).Nodup ∧
    (∀ t ∈ (runCycle pages ids).1,
       t.transaction_id ∉ ids ∧ t.transaction_id ≠ "42") := by
  obtain ⟨hsub, hnodup, hnotin, hcur⟩ := runCycle_inv pages ids
  refine ⟨?_, ?_, hnodup, ?_⟩
  · intro st e hm hid
    have hc : st.2.contains "42" = true := List.elem_iff.mpr hm
    rcases hid with h | h
    · exact stepElem_known st e (JValue.num 42) "42" h (by decide) hc
    · exact stepElem_known st e (JValue.str "42") "42" h rfl hc
  · intro st e idv id hg hx hc
    have hbind : (e.get "id").bind extract_id = some id := by
      rw [hg, Option.some_bind, hx]
    obtain ⟨tx, hm, htid⟩ := map_transaction_of_extract e id hbind
    refine ⟨tx, hm, htid, ?_⟩
    rw [stepElem_new st e idv id tx hg hx hc hm, htid]
  · intro t ht
    refine ⟨hnotin t ht, fun hq => hnotin t ht ?_⟩
    rw [hq]
    exact h42

/-- C1 witness: over the two sample pages (integer `42`, then `"43"`
appearing on both pages) with `"42"` already known, the fresh id `"43"`
is added exactly once — the batch ids compute to `["43"]` — while the
batch avoids `"42"` and every initially known id. -/
theorem transaction_dedup_witness :
    ("42" ∈ ["42"]) ∧
    ((∀ (st : List Transaction × List String) (e : JValue), "42" ∈ st.2 →
        (JValue.get e "id" = some (JValue.num 42) ∨
         JValue.get e "id" = some (JValue.str "42")) →
        stepElem st e = st) ∧
     (∀ (st : List Transaction × List String) (e idv : JValue) (id : String),
        JValue.get e "id" = some idv → extract_id idv = some id →
        st.2.contains id = false →
        ∃ tx, map_transaction e = some tx ∧ tx.transaction_id = id ∧
          stepElem st e = (st.1 ++ [tx], id :: st.2)) ∧
     ((runCycle samplePages ["42"]).1.map (fun t => t.transaction_id)).Nodup ∧
     (∀ t ∈ (runCycle samplePages ["42"]).1,
        t.transaction_id ∉ ["42"] ∧ t.transaction_id ≠ "42")) ∧
    (runCycle samplePages ["42"]).1.map (fun t => t.transaction_id) = ["43"] :=
  ⟨by decide, transaction_dedup samplePages ["42"] (by decide), rfl⟩

/-- C6: a cycle that found nothing performs no write and leaves the
ledger exactly as loaded; a cycle that found a non-empty batch writes the
loaded ledger with the batch appended after it; in every case the ledger
persisted (or kept) extends the ledger loaded at cycle start, so every
record present at cycle start is still present, unmodified and in its
original order. -/
theorem ledger_persist_frame (ledger : List Transaction)
    (pages : List PageResult) :
    ((runCycle pages (ledger.map (fun t => t.transaction_id))).1 = [] →
       cyclePersist ledger pages = (ledger, false)) ∧
    (∀ batch, (runCycle pages (ledger.map (fun t => t.transaction_id))).1 = batch →
       batch ≠ [] → cyclePersist ledger pages = (ledger ++ batch, true)) ∧
    (∃ tail, (cyclePersist ledger pages).1 = ledger ++ tail) := by
  refine ⟨?_, ?_, ?_⟩
  · intro hb
    simp [cyclePersist, hb]
  · intro batch hb hne
    have hbe : batch.isEmpty = false := by
      cases batch with
      | nil => exact absurd rfl hne
      | cons x t => rfl
    simp [cyclePersist, hb, hbe]
  · by_cases hb : (runCycle pages (ledger.map (fun t => t.transaction_id))).1 = []
    · refine ⟨[], ?_⟩
      simp [cyclePersist, hb]
    · refine ⟨(runCycle pages (ledger.map (fun t => t.transaction_id))).1, ?_⟩
      have hbe : ((runCycle pages (ledger.map (fun t => t.transaction_id))).1).isEmpty = false := by
        cases hx : (runCycle pages (ledger.map (fun t => t.transaction_id))).1 with
        | nil => exact absurd hx hb
        | cons x t => rfl
      simp [cyclePersist, hbe]

/-- C6 witness: a cycle over no pages finds nothing and performs no
write. -/
theorem ledger_persist_frame_witness : cyclePersist [] [] = ([], false) :=
  (ledger_persist_frame [] []).1 rfl

/-- A failed page leaves the cycle state untouched. -/
theorem stepPage_failed (pr : PageResult) (hf : pageFailed pr = true)
    (st : List Transaction × List String) : stepPage st pr = st := by
  cases pr with
  | netErr => rfl
  | httpFail => rfl
  | badJson => rfl
  | ok json =>
    cases hft : findTransArr json with
    | none => simp [stepPage, hft]
    | some arr =>
      rw [pageFailed, hft] at hf
      exact absurd hf (by simp)

/-- C7: a failed page — network error, non-success status, invalid JSON,
or a JSON body matching neither known shape — contributes zero
transactions, and the cycle over the remaining pages proceeds exactly as
if the failed page were absent, never terminating the sweep. -/
theorem page_failure_isolated (pr : PageResult) (hf : pageFailed pr = true)
    (xs ys : List PageResult) (st : List Transaction × List String)
    (ids : List String) :
    stepPage st pr = st ∧
    (xs ++ pr :: ys).foldl stepPage st = (xs ++ ys).foldl stepPage st ∧
    runCycle (xs ++ pr :: ys) ids = runCycle (xs ++ ys) ids := by
  have hmid : ∀ s : List Transaction × List String,
      (xs ++ pr :: ys).foldl stepPage s = (xs ++ ys).foldl stepPage s := by
    intro s
    rw [List.foldl_append, List.foldl_append, List.foldl_cons,
      stepPage_failed pr hf]
  exact ⟨stepPage_failed pr hf st, hmid st, hmid ([], ids)⟩

/-- C7 witness: a bad-JSON page between the two sample pages changes
nothing about the cycle. -/
theorem page_failure_isolated_witness :
    stepPage ([], ["42"]) PageResult.badJson = ([], ["42"]) ∧
    ([PageResult.ok samplePage1] ++ PageResult.badJson :: [PageResult.ok samplePage2]).foldl
        stepPage ([], ["42"]) =
      ([PageResult.ok samplePage1] ++ [PageResult.ok samplePage2]).foldl
        stepPage ([], ["42"]) ∧
    runCycle ([PageResult.ok samplePage1] ++ PageResult.badJson :: [PageResult.ok samplePage2]) ["42"] =
      runCycle ([PageResult.ok samplePage1] ++ [PageResult.ok samplePage2]) ["42"] :=
  page_failure_isolated PageResult.badJson rfl [PageResult.ok samplePage1]
    [PageResult.ok samplePage2] ([], ["42"]) ["42"]
